import Mathlib

/-
Verification of the balancebeam load balancer (src/main.rs) against its
natural-language specification.  The Rust source is shallowly embedded:
pure state manipulation becomes Lean functions on explicit state, socket
I/O outcomes become oracle parameters, and the unbounded routing loop
becomes a fuel-indexed function.
-/

/-- Liveness-tracking state of the upstream pool.  Mirrors
`struct UpstreamsState { num_upstreams: usize, status: Vec<bool> }` in
src/main.rs: `num_upstreams` is the current live count, `status` holds one
liveness flag per upstream index. -/
structure UpstreamsState where
  num_upstreams : Nat
  status : List Bool
deriving Repr, DecidableEq

namespace UpstreamsState

/-- Mirrors `UpstreamsState::new(num_upstreams)`: live count starts at the
pool size and every flag starts `true`. -/
def new (num_upstreams : Nat) : UpstreamsState :=
  { num_upstreams := num_upstreams, status := List.replicate num_upstreams true }

/-- Mirrors `is_alive(idx)`, i.e. `self.status[idx]`.  Rust panics on an
out-of-bounds index; every call site in the program is in bounds, and the
embedding returns `false` out of bounds. -/
def is_alive (s : UpstreamsState) (idx : Nat) : Bool :=
  s.status.getD idx false

/-- Mirrors `all_dead()`, i.e. `self.num_upstreams == 0`. -/
def all_dead (s : UpstreamsState) : Bool :=
  s.num_upstreams == 0

/-- Mirrors `set_dead(idx)`: if the index is currently alive, flip its flag
to `false` and decrement the live count; otherwise do nothing. -/
def set_dead (s : UpstreamsState) (idx : Nat) : UpstreamsState :=
  if s.is_alive idx then
    { num_upstreams := s.num_upstreams - 1, status := s.status.set idx false }
  else s

/-- Mirrors `set_alive(idx)`: if the index is currently dead, flip its flag
to `true` and increment the live count; otherwise do nothing. -/
def set_alive (s : UpstreamsState) (idx : Nat) : UpstreamsState :=
  if s.is_alive idx then s
  else { num_upstreams := s.num_upstreams + 1, status := s.status.set idx true }

end UpstreamsState

/-- One registry mutation, used to state properties of arbitrary call
sequences of `set_dead` / `set_alive`. -/
inductive RegOp where
  | dead (idx : Nat)
  | alive (idx : Nat)
deriving Repr, DecidableEq

/-- Index an operation touches. -/
def RegOp.idx : RegOp → Nat
  | .dead i => i
  | .alive i => i

/-- Apply one registry operation. -/
def applyOp (s : UpstreamsState) : RegOp → UpstreamsState
  | .dead i => s.set_dead i
  | .alive i => s.set_alive i

/-- Setting an in-range `true` entry to `false` lowers the `true`-count by
exactly one. -/
theorem count_true_set_false (l : List Bool) (i : Nat) (h : l.getD i false = true) :
    (l.set i false).count true + 1 = l.count true := by
  induction l generalizing i with
  | nil => simp [List.getD] at h
  | cons b t ih =>
    cases i with
    | zero =>
      simp only [List.getD_cons_zero] at h
      subst h
      simp [List.count_cons]
    | succ j =>
      simp only [List.getD_cons_succ] at h
      have := ih j h
      simp only [List.set_cons_succ, List.count_cons]
      omega

/-- Setting an in-range `false` entry to `true` raises the `true`-count by
exactly one. -/
theorem count_true_set_true (l : List Bool) (i : Nat) (hi : i < l.length)
    (h : l.getD i false = false) :
    (l.set i true).count true = l.count true + 1 := by
  induction l generalizing i with
  | nil => simp at hi
  | cons b t ih =>
    cases i with
    | zero =>
      simp only [List.getD_cons_zero] at h
      subst h
      simp [List.count_cons]
    | succ j =>
      simp only [List.getD_cons_succ] at h
      simp only [List.length_cons, Nat.succ_lt_succ_iff] at hi
      have := ih j hi h
      simp only [List.set_cons_succ, List.count_cons]
      omega

/-- The live-count invariant: `num_upstreams` equals the number of `true`
flags in `status`. -/
def liveCountInv (s : UpstreamsState) : Prop :=
  s.num_upstreams = s.status.count true

theorem set_dead_preserves_inv (s : UpstreamsState) (i : Nat)
    (h : liveCountInv s) : liveCountInv (s.set_dead i) := by
  unfold liveCountInv at *
  unfold UpstreamsState.set_dead
  by_cases halive : s.is_alive i = true
  · simp only [halive, if_true]
    have := count_true_set_false s.status i halive
    show s.num_upstreams - 1 = (s.status.set i false).count true
    omega
  · simp only [Bool.not_eq_true] at halive
    simp [halive, h]

theorem set_alive_preserves_inv (s : UpstreamsState) (i : Nat)
    (hi : i < s.status.length) (h : liveCountInv s) :
    liveCountInv (s.set_alive i) := by
  unfold liveCountInv at *
  unfold UpstreamsState.set_alive
  by_cases halive : s.is_alive i = true
  · simp [halive, h]
  · simp only [Bool.not_eq_true] at halive
    simp only [halive, Bool.false_eq_true, if_false]
    have := count_true_set_true s.status i hi halive
    show s.num_upstreams + 1 = (s.status.set i true).count true
    omega

theorem set_dead_length (s : UpstreamsState) (i : Nat) :
    (s.set_dead i).status.length = s.status.length := by
  unfold UpstreamsState.set_dead
  by_cases halive : s.is_alive i = true <;> simp [halive]

theorem set_alive_length (s : UpstreamsState) (i : Nat) :
    (s.set_alive i).status.length = s.status.length := by
  unfold UpstreamsState.set_alive
  by_cases halive : s.is_alive i = true <;> simp [halive]

theorem applyOp_length (s : UpstreamsState) (op : RegOp) :
    (applyOp s op).status.length = s.status.length := by
  cases op <;> simp [applyOp, set_dead_length, set_alive_length]

theorem foldl_applyOp_inv (ops : List RegOp) (s : UpstreamsState)
    (hvalid : ∀ op ∈ ops, op.idx < s.status.length) (h : liveCountInv s) :
    liveCountInv (ops.foldl applyOp s) ∧
      (ops.foldl applyOp s).status.length = s.status.length := by
  induction ops generalizing s with
  | nil => exact ⟨h, rfl⟩
  | cons op rest ih =>
    have hop : op.idx < s.status.length := hvalid op (by simp)
    have hlen := applyOp_length s op
    have hinv : liveCountInv (applyOp s op) := by
      cases op with
      | dead i => exact set_dead_preserves_inv s i h
      | alive i => exact set_alive_preserves_inv s i hop h
    have hrest : ∀ o ∈ rest, o.idx < (applyOp s op).status.length := by
      intro o ho
      rw [hlen]
      exact hvalid o (by simp [ho])
    have := ih (applyOp s op) hrest hinv
    simp only [List.foldl_cons]
    exact ⟨this.1, by rw [this.2, hlen]⟩

/-- C4: starting from a freshly constructed pool of `n` upstreams, after any
sequence of `set_dead` / `set_alive` calls with valid indices, the live
count `num_upstreams` equals the number of `true` flags in `status`, the
status vector keeps length `n`, and `set_dead` on a dead index and
`set_alive` on an alive index are no-ops. -/
theorem upstreams_state_invariants (n : Nat) (ops : List RegOp)
    (hvalid : ∀ op ∈ ops, op.idx < n) :
    (ops.foldl applyOp (UpstreamsState.new n)).num_upstreams =
      (ops.foldl applyOp (UpstreamsState.new n)).status.count true ∧
    (ops.foldl applyOp (UpstreamsState.new n)).status.length = n ∧
    (∀ (s : UpstreamsState) (i : Nat), s.is_alive i = false → s.set_dead i = s) ∧
    (∀ (s : UpstreamsState) (i : Nat), s.is_alive i = true → s.set_alive i = s) := by
  have hlen0 : (UpstreamsState.new n).status.length = n := by
    simp [UpstreamsState.new]
  have hinv0 : liveCountInv (UpstreamsState.new n) := by
    unfold liveCountInv UpstreamsState.new
    simp [List.count_replicate]
  have hvalid0 : ∀ op ∈ ops, op.idx < (UpstreamsState.new n).status.length := by
    intro op hop; rw [hlen0]; exact hvalid op hop
  have main := foldl_applyOp_inv ops (UpstreamsState.new n) hvalid0 hinv0
  refine ⟨main.1, by rw [main.2, hlen0], ?_, ?_⟩
  · intro s i hdead
    unfold UpstreamsState.set_dead
    simp [hdead]
  · intro s i halive
    unfold UpstreamsState.set_alive
    simp [halive]

/-- Witness for C4 at a concrete input: pool of 2, kill index 0 then revive
it; the invariants hold. -/
theorem upstreams_state_invariants_witness :
    (∀ op ∈ [RegOp.dead 0, RegOp.alive 0], op.idx < 2) ∧
    ([RegOp.dead 0, RegOp.alive 0].foldl applyOp (UpstreamsState.new 2)).num_upstreams =
      ([RegOp.dead 0, RegOp.alive 0].foldl applyOp (UpstreamsState.new 2)).status.count true :=
  ⟨by decide, (upstreams_state_invariants 2 [RegOp.dead 0, RegOp.alive 0] (by decide)).1⟩

/-- Error produced by `connect_to_upstream` when the pool is exhausted
(`Error::new(ErrorKind::Other, "All upstream servers are dead")`). -/
inductive RouteError where
  | allDead
deriving Repr, DecidableEq

/-- Inner selection loop of `connect_to_upstream` (src/main.rs lines
234-239): repeatedly draw `upstream_idx = rng.gen_range(0, len)` and stop
once `is_alive(upstream_idx)` holds.  `draws pos` is the oracle for the
random draw at stream position `pos` (each value is in `[0, len)` as
`gen_range` guarantees); the loop is fuel-indexed because it can spin.
Returns the drawn index together with the next stream position. -/
def pickLiveLoop (draws : Nat → Nat) (s : UpstreamsState) :
    Nat → Nat → Option (Nat × Nat)
  | 0, _ => none
  | fuel + 1, pos =>
    let j := draws pos
    if s.is_alive j then some (j, pos + 1)
    else pickLiveLoop draws s fuel (pos + 1)

/-- Embedding of `connect_to_upstream` (src/main.rs lines 226-251).
`connectOk i` is the oracle for whether a TCP connect to
`upstream_addresses[i]` succeeds.  The outer loop is fuel-indexed;
`none` means the fuel ran out before the loop returned.  On return the
second component lists the indices a TCP connect was attempted to, in
order.

Note the Rust scoping: the outer `let upstream_idx: usize = 0;` is
shadowed by the inner loop's own `let upstream_idx = rng.gen_range(...)`,
whose binding ends at the inner loop.  The code after the loop
(`&state.upstream_addresses[upstream_idx]`, `set_dead(upstream_idx)`)
therefore refers to the outer binding, which is always `0`; the picked
index is discarded, which the embedding mirrors by dropping the first
component returned by `pickLiveLoop`. -/
def connectToUpstream (connectOk : Nat → Bool) (draws : Nat → Nat)
    (innerFuel : Nat) :
    Nat → Nat → UpstreamsState → Option (Except RouteError Nat × List Nat)
  | 0, _, _ => none
  | fuel + 1, pos, s =>
    if s.all_dead then some (Except.error RouteError.allDead, [])
    else
      let upstream_idx : Nat := 0
      match pickLiveLoop draws s innerFuel pos with
      | none => none
      | some (_picked, nextPos) =>
        if connectOk upstream_idx then some (Except.ok upstream_idx, [upstream_idx])
        else
          match connectToUpstream connectOk draws innerFuel fuel nextPos
              (s.set_dead upstream_idx) with
          | none => none
          | some (r, attempts) => some (r, upstream_idx :: attempts)

/-- C1: the claim says the attempted index is the randomly drawn
live-observed one; in the code the draw is discarded by shadowing and the
connect always targets index 0.  With upstream 0 observed dead and
upstream 1 alive, the draw oracle returns 1 (the only live index), yet the
function attempts and returns index 0 — a dead-observed index is the one
attempted. -/
theorem connect_attempts_dead_index_zero :
    connectToUpstream (fun _ => true) (fun _ => 1) 1 1 0
        { num_upstreams := 1, status := [false, true] } =
      some (Except.ok 0, [0]) ∧
    UpstreamsState.is_alive { num_upstreams := 1, status := [false, true] } 0 = false := by
  constructor
  · rfl
  · rfl

/-- Helper state for C3: the pool state reached after the first failed
connect marks index 0 dead. -/
def deadZeroState : UpstreamsState := { num_upstreams := 1, status := [false, true] }

theorem connect_loops_from_deadZeroState (innerFuel fuel pos : Nat) :
    connectToUpstream (fun i => i == 1) (fun _ => 1) innerFuel fuel pos deadZeroState
      = none := by
  induction fuel generalizing pos with
  | zero => rfl
  | succ f ih =>
    cases innerFuel with
    | zero =>
      simp [connectToUpstream, deadZeroState, UpstreamsState.all_dead, pickLiveLoop]
    | succ g =>
      simp only [connectToUpstream]
      have hdead : deadZeroState.all_dead = false := by decide
      have hset : deadZeroState.set_dead 0 = deadZeroState := by decide
      rw [hdead]
      simp only [Bool.false_eq_true, if_false, pickLiveLoop]
      have halive : deadZeroState.is_alive 1 = true := by decide
      simp only [halive, if_true]
      have hco : ((0 : Nat) == 1) = false := by decide
      simp only [hco, Bool.false_eq_true, if_false, hset, ih (pos + 1)]

/-- C3: the claim says that after a connect failure the router retries a
different index and, while another upstream is live, terminates with a
successful connection.  In the code the retried index is again the outer
`upstream_idx = 0`: with two upstreams, connects to index 0 always failing
and connects to index 1 always succeeding, the routing loop never returns
for any amount of fuel, although upstream 1 stays alive and connectable
the whole time. -/
theorem failover_never_reaches_live_upstream (innerFuel fuel pos : Nat) :
    (UpstreamsState.new 2).is_alive 1 = true ∧
    (fun i => i == 1) 1 = true ∧
    connectToUpstream (fun i => i == 1) (fun _ => 1) innerFuel fuel pos
        (UpstreamsState.new 2) = none := by
  refine ⟨by decide, by decide, ?_⟩
  cases fuel with
  | zero => rfl
  | succ f =>
    cases innerFuel with
    | zero =>
      simp [connectToUpstream, UpstreamsState.new, UpstreamsState.all_dead, pickLiveLoop]
    | succ g =>
      simp only [connectToUpstream]
      have hdead : (UpstreamsState.new 2).all_dead = false := by decide
      have hset : (UpstreamsState.new 2).set_dead 0 = deadZeroState := by decide
      rw [hdead]
      simp only [Bool.false_eq_true, if_false, pickLiveLoop]
      have halive : (UpstreamsState.new 2).is_alive 1 = true := by decide
      simp only [halive, if_true]
      have hco : ((0 : Nat) == 1) = false := by decide
      simp only [hco, Bool.false_eq_true, if_false, hset,
        connect_loops_from_deadZeroState (g + 1) f (pos + 1)]

/-- C6: `all_dead` is true exactly when the live count is zero, and when it
is true, `connect_to_upstream` returns the `AllDead` error on its first
iteration with an empty list of attempted connects. -/
theorem all_dead_blocks_connect (s : UpstreamsState) (connectOk : Nat → Bool)
    (draws : Nat → Nat) (innerFuel fuel pos : Nat) :
    (s.all_dead = true ↔ s.num_upstreams = 0) ∧
    (s.all_dead = true →
      connectToUpstream connectOk draws innerFuel (fuel + 1) pos s =
        some (Except.error RouteError.allDead, [])) := by
  constructor
  · simp [UpstreamsState.all_dead]
  · intro h
    simp [connectToUpstream, h]

/-- Witness for C6 at a concrete input: a one-upstream pool whose only
index is dead. -/
theorem all_dead_blocks_connect_witness :
    UpstreamsState.all_dead { num_upstreams := 0, status := [false] } = true ∧
    connectToUpstream (fun _ => true) (fun _ => 0) 1 1 0
        { num_upstreams := 0, status := [false] } =
      some (Except.error RouteError.allDead, []) :=
  ⟨by decide,
    (all_dead_blocks_connect { num_upstreams := 0, status := [false] }
      (fun _ => true) (fun _ => 0) 1 0 0).2 (by decide)⟩

/-- Outcome oracle for one health probe of one upstream: whether the TCP
connect succeeds, whether writing the probe request succeeds, and the
parsed response status when reading the response succeeds. -/
structure ProbeOutcome where
  connectOk : Bool
  writeOk : Bool
  parse : Option Nat
deriving Repr, DecidableEq

/-- The probe request as built by `check_server_status` with
`http::Request::builder()`: method GET, uri the configured probe path, and
a `Host` header carrying the upstream's address. -/
structure ProbeRequest where
  method : String
  uri : String
  hostHeader : String
deriving Repr, DecidableEq

/-- Mirrors the request construction in `check_server_status`
(src/main.rs lines 208-213). -/
def probeRequest (path ip : String) : ProbeRequest :=
  { method := "GET", uri := path, hostHeader := ip }

/-- Embedding of `check_server_status` (src/main.rs lines 203-223):
`None` on connect failure, on write failure, on response-parse failure, or
on a non-200 status; `Some true` otherwise. -/
def check_server_status (o : ProbeOutcome) : Option Bool :=
  match o.connectOk with
  | false => none
  | true =>
    match o.writeOk with
    | false => none
    | true =>
      match o.parse with
      | none => none
      | some st => if st != 200 then none else some true

/-- Registry lock/mutation events, used to express what the health-check
cycle does while holding the `RwLock` write guard. -/
inductive LockEvent where
  | acquireWrite
  | setAlive (idx : Nat)
  | setDead (idx : Nat)
  | releaseWrite
deriving Repr, DecidableEq

/-- State effect of one event (lock events do not change the registry). -/
def applyEvent (s : UpstreamsState) : LockEvent → UpstreamsState
  | .setAlive i => s.set_alive i
  | .setDead i => s.set_dead i
  | _ => s

/-- Run a list of events over the registry state. -/
def execEvents (s : UpstreamsState) : List LockEvent → UpstreamsState
  | [] => s
  | e :: rest => execEvents (applyEvent s e) rest

/-- The registry mutations of one health-check cycle, one per upstream
index in order, as performed by the `for idx in 0..len` loop of
`active_health_check` (src/main.rs lines 191-198): `set_alive idx` when
`check_server_status` returned `Some`, `set_dead idx` otherwise. -/
def cycleEvents (outcome : Nat → ProbeOutcome) (n : Nat) : List LockEvent :=
  (List.range n).map fun idx =>
    if (check_server_status (outcome idx)).isSome then LockEvent.setAlive idx
    else LockEvent.setDead idx

/-- Registry state after one health-check cycle over `n` upstreams. -/
def healthCheckCycle (outcome : Nat → ProbeOutcome) (n : Nat)
    (s : UpstreamsState) : UpstreamsState :=
  execEvents s (cycleEvents outcome n)

/-- The full event trace of one health-check cycle: the write guard is
taken once, before the probe loop (`state.upstreams_state.write().await` on
src/main.rs line 190), every per-index mutation happens under it, and it
is dropped at the end of the loop body's scope. -/
def healthCheckCycleTrace (outcome : Nat → ProbeOutcome) (n : Nat) :
    List LockEvent :=
  LockEvent.acquireWrite :: cycleEvents outcome n ++ [LockEvent.releaseWrite]

/-- Registry states a concurrent reader can observe along a trace: the
state before each event at which the write lock is not held, plus the
final state when the lock ends up released. -/
def lockFreeStates (held : Bool) (s : UpstreamsState) :
    List LockEvent → List UpstreamsState
  | [] => if held then [] else [s]
  | e :: rest =>
    let here : List UpstreamsState := if held then [] else [s]
    let heldNext : Bool :=
      match e with
      | .acquireWrite => true
      | .releaseWrite => false
      | _ => held
    here ++ lockFreeStates heldNext (applyEvent s e) rest

theorem is_alive_set_dead_ne (s : UpstreamsState) (i j : Nat) (h : j ≠ i) :
    (s.set_dead j).is_alive i = s.is_alive i := by
  unfold UpstreamsState.set_dead
  by_cases halive : s.is_alive j = true
  · simp only [halive, if_true]
    unfold UpstreamsState.is_alive
    simp [List.getD_eq_getElem?_getD, List.getElem?_set_ne h]
  · simp [halive]

theorem is_alive_set_alive_ne (s : UpstreamsState) (i j : Nat) (h : j ≠ i) :
    (s.set_alive j).is_alive i = s.is_alive i := by
  unfold UpstreamsState.set_alive
  by_cases halive : s.is_alive j = true
  · simp [halive]
  · simp only [halive, Bool.false_eq_true, if_false]
    unfold UpstreamsState.is_alive
    simp [List.getD_eq_getElem?_getD, List.getElem?_set_ne h]

theorem is_alive_oob (s : UpstreamsState) (i : Nat) (h : s.status.length ≤ i) :
    s.is_alive i = false :=
  List.getD_eq_default s.status false h

theorem is_alive_set_dead_self (s : UpstreamsState) (i : Nat) :
    (s.set_dead i).is_alive i = false := by
  unfold UpstreamsState.set_dead
  by_cases halive : s.is_alive i = true
  · have hi : i < s.status.length := by
      by_contra hcon
      rw [is_alive_oob s i (Nat.le_of_not_lt hcon)] at halive
      exact Bool.false_ne_true halive
    simp only [halive, if_true]
    unfold UpstreamsState.is_alive
    simp [List.getD_eq_getElem?_getD, List.getElem?_set_self, hi]
  · simp [halive]

theorem is_alive_set_alive_self (s : UpstreamsState) (i : Nat)
    (hi : i < s.status.length) :
    (s.set_alive i).is_alive i = true := by
  unfold UpstreamsState.set_alive
  by_cases halive : s.is_alive i = true
  · simp [halive]
  · simp only [halive, Bool.false_eq_true, if_false]
    unfold UpstreamsState.is_alive
    simp [List.getD_eq_getElem?_getD, List.getElem?_set_self, hi]

theorem applyEvent_length (s : UpstreamsState) (e : LockEvent) :
    (applyEvent s e).status.length = s.status.length := by
  cases e <;> simp [applyEvent, set_dead_length, set_alive_length]

theorem execEvents_length (evs : List LockEvent) (s : UpstreamsState) :
    (execEvents s evs).status.length = s.status.length := by
  induction evs generalizing s with
  | nil => rfl
  | cons e rest ih => rw [execEvents, ih, applyEvent_length]

theorem execEvents_append (l1 l2 : List LockEvent) (s : UpstreamsState) :
    execEvents s (l1 ++ l2) = execEvents (execEvents s l1) l2 := by
  induction l1 generalizing s with
  | nil => rfl
  | cons e rest ih => simp [execEvents, ih]

theorem cycle_events_is_alive (outcome : Nat → ProbeOutcome) (n : Nat)
    (s : UpstreamsState) (idx : Nat) (hidx : idx < n)
    (hlen : idx < s.status.length) :
    (execEvents s (cycleEvents outcome n)).is_alive idx =
      (check_server_status (outcome idx)).isSome := by
  induction n with
  | zero => exact absurd hidx (Nat.not_lt_zero idx)
  | succ m ih =>
    have hsplit : cycleEvents outcome (m + 1) =
        cycleEvents outcome m ++
          [if (check_server_status (outcome m)).isSome then LockEvent.setAlive m
           else LockEvent.setDead m] := by
      unfold cycleEvents
      rw [List.range_succ, List.map_append]
      rfl
    rw [hsplit, execEvents_append]
    rcases Nat.lt_or_ge idx m with hlt | hge
    · have hne : m ≠ idx := Nat.ne_of_gt hlt
      by_cases hsome : (check_server_status (outcome m)).isSome = true
      · simp only [hsome, if_true, execEvents, applyEvent]
        rw [is_alive_set_alive_ne _ _ _ hne]
        exact ih hlt
      · simp only [hsome, Bool.false_eq_true, if_false, execEvents, applyEvent]
        rw [is_alive_set_dead_ne _ _ _ hne]
        exact ih hlt
    · have heq : idx = m := Nat.le_antisymm (Nat.lt_succ_iff.mp hidx) hge
      subst heq
      have hlen2 : idx < (execEvents s (cycleEvents outcome idx)).status.length := by
        rw [execEvents_length]
        exact hlen
      by_cases hsome : (check_server_status (outcome idx)).isSome = true
      · simp only [hsome, if_true, execEvents, applyEvent]
        rw [is_alive_set_alive_self _ _ hlen2]
      · simp only [hsome, Bool.false_eq_true, if_false, execEvents, applyEvent]
        rw [is_alive_set_dead_self]

theorem check_server_status_isSome (o : ProbeOutcome) :
    (check_server_status o).isSome = true ↔
      o.connectOk = true ∧ o.writeOk = true ∧ o.parse = some 200 := by
  obtain ⟨c, w, p⟩ := o
  cases c with
  | false => simp [check_server_status]
  | true =>
    cases w with
    | false => simp [check_server_status]
    | true =>
      cases p with
      | none => simp [check_server_status]
      | some st =>
        by_cases hst : st = 200
        · subst hst
          simp [check_server_status]
        · simp [check_server_status, hst]

/-- C5: in one health-check cycle, an index is classified alive (its flag
after the cycle is `true`) exactly when its probe's connect, write and
response parse all succeeded and the parsed status was 200; any connect,
write or parse failure or non-200 status yields `set_dead`, i.e. a `false`
flag.  The probe request is a GET to the configured path with a `Host`
header carrying the upstream's address. -/
theorem health_check_classification (outcome : Nat → ProbeOutcome) (n : Nat)
    (s : UpstreamsState) (idx : Nat) (path ip : String)
    (hidx : idx < n) (hlen : s.status.length = n) :
    ((healthCheckCycle outcome n s).is_alive idx = true ↔
      (outcome idx).connectOk = true ∧ (outcome idx).writeOk = true ∧
        (outcome idx).parse = some 200) ∧
    (probeRequest path ip).method = "GET" ∧
    (probeRequest path ip).uri = path ∧
    (probeRequest path ip).hostHeader = ip := by
  refine ⟨?_, rfl, rfl, rfl⟩
  unfold healthCheckCycle
  rw [cycle_events_is_alive outcome n s idx hidx (hlen ▸ hidx)]
  exact check_server_status_isSome (outcome idx)

/-- Witness for C5 at a concrete input: two upstreams, probe 0 succeeds
with 200, probe 1 gets status 500; after the cycle index 0 is alive. -/
theorem health_check_classification_witness :
    (0 < 2 ∧ (UpstreamsState.new 2).status.length = 2) ∧
    ((healthCheckCycle
        (fun i => if i == 0 then ⟨true, true, some 200⟩ else ⟨true, true, some 500⟩)
        2 (UpstreamsState.new 2)).is_alive 0 = true ↔
      (true = true ∧ true = true ∧ (some 200 : Option Nat) = some 200)) :=
  ⟨⟨by decide, by decide⟩, by
    have h := (health_check_classification
      (fun i => if i == 0 then ⟨true, true, some 200⟩ else ⟨true, true, some 500⟩)
      2 (UpstreamsState.new 2) 0 "/" "127.0.0.1:8080" (by decide) (by decide)).1
    simpa using h⟩

/-- Events that mutate the registry (as opposed to lock transitions). -/
def isMutation : LockEvent → Bool
  | .setAlive _ => true
  | .setDead _ => true
  | _ => false

theorem lockFreeStates_held_mutations (evs : List LockEvent)
    (hmut : ∀ e ∈ evs, isMutation e = true) (s : UpstreamsState) :
    lockFreeStates true s (evs ++ [LockEvent.releaseWrite]) = [execEvents s evs] := by
  induction evs generalizing s with
  | nil => rfl
  | cons e rest ih =>
    have he : isMutation e = true := hmut e (by simp)
    have hrest : ∀ x ∈ rest, isMutation x = true := by
      intro x hx; exact hmut x (by simp [hx])
    cases e with
    | setAlive i =>
      simp only [List.cons_append, lockFreeStates, execEvents]
      exact ih hrest _
    | setDead i =>
      simp only [List.cons_append, lockFreeStates, execEvents]
      exact ih hrest _
    | acquireWrite => simp [isMutation] at he
    | releaseWrite => simp [isMutation] at he

theorem cycleEvents_mutations (outcome : Nat → ProbeOutcome) (n : Nat) :
    ∀ e ∈ cycleEvents outcome n, isMutation e = true := by
  intro e he
  unfold cycleEvents at he
  simp only [List.mem_map] at he
  obtain ⟨idx, _, rfl⟩ := he
  by_cases hsome : (check_server_status (outcome idx)).isSome = true <;>
    simp [hsome, isMutation]

/-- C9: along the event trace of one health-check cycle, the registry
states observable while the write lock is free are exactly the pre-cycle
state and the fully updated post-cycle state — never a partially applied
result vector — and the trace acquires the write lock exactly once. -/
theorem health_check_cycle_atomic (outcome : Nat → ProbeOutcome) (n : Nat)
    (s : UpstreamsState) :
    lockFreeStates false s (healthCheckCycleTrace outcome n) =
      [s, healthCheckCycle outcome n s] ∧
    (healthCheckCycleTrace outcome n).count LockEvent.acquireWrite = 1 := by
  constructor
  · show List.cons s (lockFreeStates true s
      (cycleEvents outcome n ++ [LockEvent.releaseWrite])) = _
    rw [lockFreeStates_held_mutations (cycleEvents outcome n)
      (cycleEvents_mutations outcome n) s]
    rfl
  · unfold healthCheckCycleTrace
    have h1 : LockEvent.acquireWrite ∉ cycleEvents outcome n := by
      intro hmem
      have := cycleEvents_mutations outcome n _ hmem
      simp [isMutation] at this
    simp [List.count_cons, List.count_append, List.count_eq_zero.mpr h1]

/-- Error variants of the request-framing collaborator (`request::Error`),
exactly the variants `handle_connection` matches on (src/main.rs lines
284-301); payloads irrelevant to control flow are dropped. -/
inductive ReqError where
  | incompleteRequest (bytes : Nat)
  | malformedRequest
  | invalidContentLength
  | contentLengthMismatch
  | requestBodyTooLarge
  | connectionError
deriving Repr, DecidableEq

/-- The status `handle_connection` maps a request-parse error to in the
catch-all arm (src/main.rs lines 295-302): 400 for incomplete, malformed
and content-length errors, 413 for an oversized body, 503 for a connection
error (which the earlier arm already intercepts). -/
def requestErrorStatus : ReqError → Nat
  | .incompleteRequest _ => 400
  | .malformedRequest => 400
  | .invalidContentLength => 400
  | .contentLengthMismatch => 400
  | .requestBodyTooLarge => 413
  | .connectionError => 503

/-- I/O outcomes feeding one iteration of the serving loop of
`handle_connection` (src/main.rs lines 279-341): the result of
`request::read_from_stream` on the client socket, whether
`request::write_to_stream` to the upstream succeeds, and the result of
`response::read_from_stream` on the upstream (its status on success). -/
structure LoopInput where
  readResult : Except ReqError Unit
  upstreamWriteOk : Bool
  upstreamReadResult : Except Unit Nat

/-- Observable outcome of one iteration of the serving loop:
`terminateSilently` is a bare `return` with no response written;
`respondAndContinue st` sends a synthesized response with status `st` and
runs the loop again on the still-open connection; `respondAndTerminate st`
sends a synthesized response with status `st` and returns;
`relayAndContinue st` forwards the upstream's response (status `st`)
verbatim and runs the loop again. -/
inductive StepResult where
  | terminateSilently
  | respondAndContinue (status : Nat)
  | respondAndTerminate (status : Nat)
  | relayAndContinue (status : Nat)
deriving Repr, DecidableEq

/-- Embedding of one iteration of the serving loop of `handle_connection`
(src/main.rs lines 279-341), with the match arms in source order:
`Err(IncompleteRequest(0))` returns silently, `Err(ConnectionError(_))`
returns silently, any other `Err` is answered via `requestErrorStatus` and
the loop continues, and on `Ok` the request (with `x-forwarded-for`
extended) is written to the upstream — a write failure or a failure
reading the upstream's response yields a 502 and terminates, otherwise the
upstream response is relayed and the loop continues. -/
def servingStep (inp : LoopInput) : StepResult :=
  match inp.readResult with
  | .error (.incompleteRequest 0) => .terminateSilently
  | .error .connectionError => .terminateSilently
  | .error e => .respondAndContinue (requestErrorStatus e)
  | .ok _ =>
    if inp.upstreamWriteOk = false then .respondAndTerminate 502
    else
      match inp.upstreamReadResult with
      | .error _ => .respondAndTerminate 502
      | .ok st => .relayAndContinue st

/-- Whether the loop iteration reaches the upstream write
(`request::write_to_stream(&request, &mut upstream_conn)` on src/main.rs
line 320): it does exactly on the `Ok` arm of the request read. -/
def attemptsUpstreamWrite (inp : LoopInput) : Bool :=
  match inp.readResult with
  | .ok _ => true
  | .error _ => false

/-- Embedding of the session-start routing in `handle_connection`
(src/main.rs lines 267-274): on any `connect_to_upstream` error the client
receives a synthesized 502 (`some 502`) and the handler returns; on
success the serving loop starts (`none`, no synthesized response). -/
def sessionInit (routeResult : Except RouteError Unit) : Option Nat :=
  match routeResult with
  | .error _ => some 502
  | .ok _ => none

/-- C2: the claim says every well-formed request is rate-limit checked
(`check_and_record` keyed by the client IP) before forwarding, with denied
requests answered and kept away from the upstream.  The code performs no
such check: `handle_connection` never consults `state.rate_limiter`
(`update_rate_limiter` is an empty stub), so on every well-formed request
the step writes to the upstream unconditionally and no
respond-and-continue denial outcome is reachable from an `Ok` read. -/
theorem no_rate_limit_check_before_forwarding (inp : LoopInput)
    (h : inp.readResult = Except.ok ()) :
    attemptsUpstreamWrite inp = true ∧
    ∀ st : Nat, servingStep inp ≠ StepResult.respondAndContinue st := by
  obtain ⟨rr, w, ur⟩ := inp
  cases h
  refine ⟨rfl, ?_⟩
  intro st
  cases w with
  | false => simp [servingStep]
  | true => cases ur <;> simp [servingStep]

/-- Witness for C2 at a concrete input: a well-formed request with a
healthy upstream round trip. -/
theorem no_rate_limit_check_before_forwarding_witness :
    attemptsUpstreamWrite ⟨Except.ok (), true, Except.ok 200⟩ = true ∧
    ∀ st : Nat, servingStep ⟨Except.ok (), true, Except.ok 200⟩ ≠
      StepResult.respondAndContinue st :=
  no_rate_limit_check_before_forwarding ⟨Except.ok (), true, Except.ok 200⟩ rfl

/-- C7: a clean close before any bytes (IncompleteRequest 0) and a
transport-level read error both terminate the session silently; malformed,
incomplete and content-length errors are answered with 400 and the loop
continues; an oversized body is answered with 413 and the loop
continues. -/
theorem request_read_error_handling (w : Bool) (r : Except Unit Nat) (n : Nat) :
    servingStep ⟨Except.error (ReqError.incompleteRequest 0), w, r⟩ =
      StepResult.terminateSilently ∧
    servingStep ⟨Except.error ReqError.connectionError, w, r⟩ =
      StepResult.terminateSilently ∧
    servingStep ⟨Except.error (ReqError.incompleteRequest (n + 1)), w, r⟩ =
      StepResult.respondAndContinue 400 ∧
    servingStep ⟨Except.error ReqError.malformedRequest, w, r⟩ =
      StepResult.respondAndContinue 400 ∧
    servingStep ⟨Except.error ReqError.invalidContentLength, w, r⟩ =
      StepResult.respondAndContinue 400 ∧
    servingStep ⟨Except.error ReqError.contentLengthMismatch, w, r⟩ =
      StepResult.respondAndContinue 400 ∧
    servingStep ⟨Except.error ReqError.requestBodyTooLarge, w, r⟩ =
      StepResult.respondAndContinue 413 :=
  ⟨rfl, rfl, rfl, rfl, rfl, rfl, rfl⟩

/-- C8: a failed write of the request to the upstream yields a synthesized
502 and terminates the session; a failed read of the upstream's response
yields a synthesized 502 and terminates the session; a routing failure at
session start (the only routing error is AllDead) yields a synthesized 502
and the session never starts serving. -/
theorem upstream_failure_sends_502_and_terminates (r : Except Unit Nat) :
    servingStep ⟨Except.ok (), false, r⟩ = StepResult.respondAndTerminate 502 ∧
    servingStep ⟨Except.ok (), true, Except.error ()⟩ =
      StepResult.respondAndTerminate 502 ∧
    sessionInit (Except.error RouteError.allDead) = some 502 :=
  ⟨rfl, rfl, rfl⟩

/-- C10: the catch-all parse-error arm maps `ConnectionError` to 503, but
that branch is unreachable because the earlier arm already returns on
`ConnectionError`; consequently no loop iteration ever synthesizes a 503,
and every synthesized status — from the serving loop or from session
start — is 400, 413 or 502. -/
theorem connection_error_503_branch_unreachable (inp : LoopInput) (st : Nat)
    (q : Except RouteError Unit) :
    requestErrorStatus ReqError.connectionError = 503 ∧
    servingStep inp ≠ StepResult.respondAndContinue 503 ∧
    servingStep inp ≠ StepResult.respondAndTerminate 503 ∧
    ((servingStep inp = StepResult.respondAndContinue st ∨
        servingStep inp = StepResult.respondAndTerminate st) →
      st = 400 ∨ st = 413 ∨ st = 502) ∧
    (sessionInit q = none ∨ sessionInit q = some 502) := by
  obtain ⟨rr, w, ur⟩ := inp
  refine ⟨rfl, ?_, ?_, ?_, ?_⟩
  · cases rr with
    | ok u => cases w <;> cases ur <;> simp [servingStep]
    | error e =>
      cases e with
      | incompleteRequest n => cases n <;> simp [servingStep, requestErrorStatus]
      | _ => simp [servingStep, requestErrorStatus]
  · cases rr with
    | ok u => cases w <;> cases ur <;> simp [servingStep]
    | error e =>
      cases e with
      | incompleteRequest n => cases n <;> simp [servingStep, requestErrorStatus]
      | _ => simp [servingStep, requestErrorStatus]
  · intro hcase
    cases rr with
    | ok u =>
      cases w with
      | false =>
        simp [servingStep] at hcase
        omega
      | true =>
        cases ur with
        | error e =>
          simp [servingStep] at hcase
          omega
        | ok s2 => simp [servingStep] at hcase
    | error e =>
      cases e with
      | incompleteRequest n =>
        cases n with
        | zero => simp [servingStep] at hcase
        | succ m =>
          simp [servingStep, requestErrorStatus] at hcase
          omega
      | malformedRequest =>
        simp [servingStep, requestErrorStatus] at hcase
        omega
      | invalidContentLength =>
        simp [servingStep, requestErrorStatus] at hcase
        omega
      | contentLengthMismatch =>
        simp [servingStep, requestErrorStatus] at hcase
        omega
      | requestBodyTooLarge =>
        simp [servingStep, requestErrorStatus] at hcase
        omega
      | connectionError => simp [servingStep] at hcase
  · cases q with
    | error e => right; rfl
    | ok u => left; rfl

/-- Witness for C10 at a concrete input: a malformed request is answered
with one of the permitted statuses. -/
theorem connection_error_503_branch_unreachable_witness :
    (servingStep ⟨Except.error ReqError.malformedRequest, true, Except.ok 200⟩ =
        StepResult.respondAndContinue 400 ∨
      servingStep ⟨Except.error ReqError.malformedRequest, true, Except.ok 200⟩ =
        StepResult.respondAndTerminate 400) ∧
    (400 = 400 ∨ 400 = 413 ∨ 400 = 502) :=
  ⟨Or.inl rfl,
    (connection_error_503_branch_unreachable
      ⟨Except.error ReqError.malformedRequest, true, Except.ok 200⟩ 400
      (Except.ok ())).2.2.2.1 (Or.inl rfl)⟩
